import Mathlib

/-!
Verification of the JULIA (IR) generation pass of
`libsolidity/codegen/ir/IRGenerate.cpp`.

The C++ visitor is embedded as explicit state passing: the mutable members
`m_contracts`, `m_body` and `m_currentFunction` of `IRGenerate` become the
fields of `GenState`, every `visit`/`endVisit` member function becomes a
function `GenState → GenState × Option GenError`, and the exceptions thrown
by `solAssert` / `solUnimplementedAssert` become the `Option GenError`
component (an error aborts the traversal exactly where the C++ exception
propagates, leaving the state as it was at the throw site).

`dev::keccak256` lives outside this tree (`libdevcore/SHA3`), so the hash is
an explicit parameter `k : Keccak` threaded through the generator; every
theorem below holds for an arbitrary hash function.  Source locations are not
modelled: no property below concerns them.
-/

namespace IRGen

/-- Abstract keccak-256: maps a string to its digest byte sequence.  The real
implementation (`dev::keccak256`, outside this tree) always returns 32 bytes,
but no theorem below needs that. -/
def Keccak : Type := String → List Nat

/-- Literal kinds of the assembly AST (`assembly::LiteralKind`); the IR
generator only ever produces `Number`. -/
inductive LiteralKind where
  | Number
  | Boolean
  | str
  deriving DecidableEq, Repr

/-- Literal of the assembly AST (`assembly::Literal`): kind, value and the
explicit fixed-width type tag. -/
structure AsmLiteral where
  kind : LiteralKind
  value : String
  littype : String
  deriving DecidableEq, Repr

/-- Statement of the assembly (IR) AST, the closed variant set of
`assembly::Statement` as used by this pass.  A `Case` of `assembly::Switch`
is a pair of an optional selector literal (`none` marks the default case)
and the statements of its body block. -/
inductive AsmStatement where
  | literal (lit : AsmLiteral)
  | funCall (callee : String) (args : List AsmStatement)
  | assign (target : String) (value : AsmStatement)
  | funDef (name : String) (rets : List String) (body : List AsmStatement)
  | block (stmts : List AsmStatement)
  | switchStmt (expr : AsmStatement)
      (cases : List (Option AsmLiteral × List AsmStatement))

/-- Case of a `Switch`: optional selector literal (`none` means default) and
body statements. -/
abbrev AsmCase : Type := Option AsmLiteral × List AsmStatement

/-- Solidity statement forms traversed by this pass: nested source blocks,
`throw`, and inline assembly (whose operations are already an assembly
block). -/
inductive SrcStatement where
  | block (stmts : List SrcStatement)
  | throwStmt
  | inlineAssembly (ops : List AsmStatement)

/-- Function definition of the source AST, with the attributes this pass
reads.  Type resolution, payability and external visibility are resolved
upstream, so `payable` and `inExternalInterface` (the elaborator's
`isPayable()` / `isPartOfExternalInterface()`) are plain attributes here;
`paramTypes` doubles as the parameter list and as the canonical parameter
type names of the signature. -/
structure SrcFunction where
  name : String
  paramTypes : List String
  returnParams : List String
  mods : List String
  implemented : Bool
  payable : Bool
  inExternalInterface : Bool
  body : List SrcStatement

/-- Contract kinds (`ContractDefinition::ContractKind`). -/
inductive ContractKind where
  | Contract
  | Interface
  | Library
  deriving DecidableEq, Repr

/-- Contract definition of the source AST, with the attributes this pass
reads. -/
structure SrcContract where
  kind : ContractKind
  baseContracts : List String
  definedStructs : List String
  definedEnums : List String
  events : List String
  functionModifiers : List String
  fullyQualifiedName : String
  definedFunctions : List SrcFunction

/-- Modelled from the spec: `FunctionDefinition::externalSignature` (outside
this tree) — the canonical signature is the function name plus the
comma-joined canonical parameter type names in parentheses, no whitespace. -/
def externalSignature (f : SrcFunction) : String :=
  f.name ++ "(" ++ String.intercalate "," f.paramTypes ++ ")"

/-- Modelled from the spec: `ContractDefinition::fallbackFunction` (outside
this tree) — the unnamed function of the contract; at most one exists,
guaranteed by the upstream elaborator. -/
def fallbackFunction (c : SrcContract) : Option SrcFunction :=
  c.definedFunctions.find? (fun f => f.name = "")

/-- Hex digit character for a value below 16 (lowercase, as `dev::toHex`). -/
def hexDigit (n : Nat) : Char :=
  if n < 10 then Char.ofNat (48 + n) else Char.ofNat (87 + n)

/-- Two lowercase hex digits of one byte. -/
def byteToHex (b : Nat) : String :=
  String.mk [hexDigit (b / 16 % 16), hexDigit (b % 16)]

/-- Modelled from the spec: `dev::toHex` on a digest (outside this tree) —
the concatenated two-digit hex encoding of the bytes, no prefix. -/
def bytesToHex (bs : List Nat) : String :=
  String.join (bs.map byteToHex)

/-- Big-endian interpretation of a byte sequence as a number, as
`FixedHash::Arith` does. -/
def bytesToNat (bs : List Nat) : Nat :=
  bs.foldl (fun acc b => 256 * acc + b) 0

/-- Modelled from the spec: `dev::toHex` of a 256-bit value with
`HexPrefix::Add` (outside this tree) — `0x` followed by the 64-digit
zero-padded big-endian hex encoding. -/
def natToHex64 (n : Nat) : String :=
  String.join (((List.range 32).reverse).map (fun i => byteToHex (n / 256 ^ i % 256)))

/-- Errors raised by the generator: `unsupported` is
`solUnimplementedAssert` (an `UnimplementedFeatureError`, naming the
restriction), `internal` is `solAssert` (an internal-consistency
violation). -/
inductive GenError where
  | unsupported (msg : String)
  | internal (msg : String)
  deriving DecidableEq, Repr

/-- The transient current-function context: the name and the partial body of
`m_currentFunction` (source lines 142-145).  `none` models the initial state
in which no function visit has yet populated the field. -/
structure CurFun where
  name : String
  body : List AsmStatement

/-- Mutable state of `IRGenerate`: the process-wide registry `m_contracts`
(an association list, since only lookup and insertion are used), the key of
the block `m_body` currently aliases, and `m_currentFunction`.  `m_body` is
a shared pointer into the registry, so appends through it update the
registered block in place; this is modelled by `current` naming the registry
entry that `appendToBody` updates. -/
structure GenState where
  contracts : List (String × List AsmStatement)
  current : Option String
  currentFunction : Option CurFun

/-- Initial generator state: empty registry, no current block, no current
function. -/
def initState : GenState := ⟨[], none, none⟩

/-- Lookup in the contract registry. -/
def lookupContract (l : List (String × List AsmStatement)) (key : String) :
    Option (List AsmStatement) :=
  match l with
  | [] => none
  | (k, v) :: rest => if k = key then some v else lookupContract rest key

/-- Update the registered block of one contract in place. -/
def updateAssoc (l : List (String × List AsmStatement)) (key : String)
    (g : List AsmStatement → List AsmStatement) :
    List (String × List AsmStatement) :=
  match l with
  | [] => []
  | (k, v) :: rest =>
      if k = key then (k, g v) :: rest else (k, v) :: updateAssoc rest key g

/-- Append one statement through `m_body` (source
`m_body->statements.emplace_back(...)`): the block the registry shares with
`m_body` grows by one statement. -/
def appendToBody (s : AsmStatement) (st : GenState) : GenState :=
  match st.current with
  | some name => { st with contracts := updateAssoc st.contracts name (fun b => b ++ [s]) }
  | none => st

/-- Append one statement to the body of the current function
(`m_currentFunction.body.statements.emplace_back(...)`). -/
def appendToCurrent (s : AsmStatement) (st : GenState) : GenState :=
  match st.currentFunction with
  | some cf => { st with currentFunction := some ⟨cf.name, cf.body ++ [s]⟩ }
  | none => st

/-- Source lines 196-201, `IRGenerate::createFunctionCall`: a call node with
the given callee and no arguments. -/
def createFunctionCall (f : String) : AsmStatement :=
  AsmStatement.funCall f []

/-- The `0:u256` literal used by `createRevert`. -/
def zeroU256 : AsmLiteral := ⟨LiteralKind.Number, "0", "u256"⟩

/-- Source lines 210-222, `IRGenerate::createRevert`: `revert(0:u256,
0:u256)`, a call with two zero-valued 256-bit-typed literal arguments. -/
def createRevert : AsmStatement :=
  AsmStatement.funCall "revert" [AsmStatement.literal zeroU256, AsmStatement.literal zeroU256]

/-- Source lines 63-69, `uniqueFunctionName`.  An unnamed function (the
fallback) is named `fallback`; otherwise the name is
`_<name>_<hex(keccak256(signature))>`.  The source line 68 spells the hash
argument `function.externalSignature()`, referencing an undeclared
identifier (`function` names no variable in scope) instead of the parameter
`_function`; the clear intent, `_function.externalSignature()`, is embedded
here and the slip is recorded against the corresponding claim. -/
def uniqueFunctionName (k : Keccak) (f : SrcFunction) : String :=
  if f.name = "" then "fallback"
  else "_" ++ f.name ++ "_" ++ bytesToHex (k (externalSignature f))

/-- Source lines 102-105: the selector literal value,
`toHex(FixedHash<4>::Arith(FixedHash<4>(keccak256(sig))), HexPrefix::Add)`.
`FixedHash<4>` of a 32-byte digest keeps the leading four bytes
(`AlignLeft`), `Arith` reads them big-endian, and the result is hex-encoded
with a `0x` prefix. -/
def selectorValue (k : Keccak) (f : SrcFunction) : String :=
  "0x" ++ natToHex64 (bytesToNat ((k (externalSignature f)).take 4))

/-- The selector literal placed on a dispatch case: a `Number` literal with
the hex-encoded selector value and the fixed-width type tag `u256`. -/
def selectorLiteral (k : Keccak) (f : SrcFunction) : AsmLiteral :=
  ⟨LiteralKind.Number, selectorValue k f, "u256"⟩

/-- Modelled from the spec: the first boilerplate snippet of
`buildDispatcher` (source lines 75-92) as parsed by the embedded assembly
micro-parser (`assembly::Parser`, outside this tree) in JULIA mode — the
value-transfer guard `function ensureNoValueTransfer()` whose body switches
on `callvalue()`, doing nothing for `0:u256` and reverting otherwise. -/
def ensureNoValueTransferDef : AsmStatement :=
  AsmStatement.funDef "ensureNoValueTransfer" []
    [AsmStatement.switchStmt (createFunctionCall "callvalue")
      [(some zeroU256, []),
       (none, [createRevert])]]

/-- Modelled from the spec: the second boilerplate snippet of
`buildDispatcher` (source lines 75-92) as parsed by the assembly
micro-parser — the selector extractor `function extractCallSignature() ->
sig:u256` assigning `sig := div(calldataload(0:u256), exp(2:u256,
224:u256))`, the leading 4 bytes of call input as a right-shifted 256-bit
value. -/
def extractCallSignatureDef : AsmStatement :=
  AsmStatement.funDef "extractCallSignature" ["sig"]
    [AsmStatement.assign "sig"
      (AsmStatement.funCall "div"
        [AsmStatement.funCall "calldataload" [AsmStatement.literal zeroU256],
         AsmStatement.funCall "exp"
           [AsmStatement.literal ⟨LiteralKind.Number, "2", "u256"⟩,
            AsmStatement.literal ⟨LiteralKind.Number, "224", "u256"⟩]])]

/-- The two parsed boilerplate statements, in snippet order: value guard
first, selector extractor second. -/
def boilerplateStatements : List AsmStatement :=
  [ensureNoValueTransferDef, extractCallSignatureDef]

/-- Source lines 181-194, `IRGenerate::appendFunction`: the parsed top-level
statements of the boilerplate snippet are spliced into `m_body` in snippet
order.  (The parse itself is the micro-parser's, outside this tree; a parse
failure or diagnostic would be a `solAssert` violation, impossible for the
fixed compiled-in snippet.) -/
def appendFunction (stmts : List AsmStatement) (st : GenState) : GenState :=
  stmts.foldl (fun s stmt => appendToBody stmt s) st

/-- Source lines 107-116: the dispatch case of one externally callable
function — its selector literal, and a body that calls
`ensureNoValueTransfer` first when the function is not payable and then the
function's unique internal name. -/
def dispatchCaseOf (k : Keccak) (f : SrcFunction) : AsmCase :=
  (some (selectorLiteral k f),
   (if f.payable then [] else [createFunctionCall "ensureNoValueTransfer"]) ++
     [createFunctionCall (uniqueFunctionName k f)])

/-- Source lines 119-130: the default case — when a fallback function is
declared its body calls `ensureNoValueTransfer` first if the fallback is not
payable and then `fallback`; otherwise the body is the canonical revert
wrapped in a block (`wrapInBlock(createRevert())`). -/
def defaultCaseOf (c : SrcContract) : AsmCase :=
  match fallbackFunction c with
  | some fb =>
      (none,
       (if fb.payable then [] else [createFunctionCall "ensureNoValueTransfer"]) ++
         [createFunctionCall "fallback"])
  | none => (none, [createRevert])

/-- The externally callable functions of a contract, in declaration order
(the functions the dispatcher loop of lines 97-117 does not skip). -/
def externalFunctions (c : SrcContract) : List SrcFunction :=
  c.definedFunctions.filter (fun f => f.inExternalInterface)

/-- The dispatch switch of lines 94-130: its expression calls
`extractCallSignature`, its cases are one per externally callable function
in declaration order followed by the single default case. -/
def dispatchSwitch (k : Keccak) (c : SrcContract) : AsmStatement :=
  AsmStatement.switchStmt (createFunctionCall "extractCallSignature")
    ((externalFunctions c).map (dispatchCaseOf k) ++ [defaultCaseOf c])

/-- Source lines 73-133, `IRGenerate::buildDispatcher`: splice the two
boilerplate helpers, then append the dispatch switch as the last statement
of the contract block. -/
def buildDispatcher (k : Keccak) (c : SrcContract) (st : GenState) : GenState :=
  appendToBody (dispatchSwitch k c) (appendFunction boilerplateStatements st)

mutual

/-- Statement traversal of the visitor: source blocks are flattened (lines
156-161), `throw` appends the canonical revert (lines 163-169), inline
assembly passes its operations through as a block statement (lines
171-179). -/
def visitSrcStmt (s : SrcStatement) (st : GenState) : GenState :=
  match s with
  | SrcStatement.block ss => visitSrcList ss st
  | SrcStatement.throwStmt => appendToCurrent createRevert st
  | SrcStatement.inlineAssembly ops => appendToCurrent (AsmStatement.block ops) st

/-- Traversal of a statement list in order. -/
def visitSrcList (ss : List SrcStatement) (st : GenState) : GenState :=
  match ss with
  | [] => st
  | s :: rest => visitSrcList rest (visitSrcStmt s st)

end

/-- The first violated function-level restriction, in the order of source
lines 137-140, with the exact `solUnimplementedAssert` message; `none` when
the function passes all four checks. -/
def functionViolation (f : SrcFunction) : Option String :=
  if f.implemented = false then some "Unimplemented functions not supported yet."
  else if f.mods ≠ [] then some "Modifiers not supported yet."
  else if f.paramTypes ≠ [] then some "Parameters not supported yet."
  else if f.returnParams ≠ [] then some "Return parameters not supported yet."
  else none

/-- Source lines 135-154, `visit(FunctionDefinition)` and its `endVisit`:
after the four restriction checks, the current-function context is set to
the unique name with an empty body, the body statements are visited, and on
exit the finished function definition is appended to the contract block.
Nothing resets `m_currentFunction` afterwards (the source comment says
`invalidate` but no code does). -/
def visitFunctionDefinition (k : Keccak) (f : SrcFunction) (st : GenState) :
    GenState × Option GenError :=
  match functionViolation f with
  | some m => (st, some (GenError.unsupported m))
  | none =>
      let st1 : GenState := { st with currentFunction := some ⟨uniqueFunctionName k f, []⟩ }
      let st2 : GenState := visitSrcList f.body st1
      match st2.currentFunction with
      | some cf => (appendToBody (AsmStatement.funDef cf.name [] cf.body) st2, none)
      | none => (appendToBody (AsmStatement.funDef "" [] []) st2, none)

/-- Source line 53, `ASTNode::listAccept` over the defined functions: visit
each in declaration order, aborting at the first error. -/
def visitFunctions (k : Keccak) (fs : List SrcFunction) (st : GenState) :
    GenState × Option GenError :=
  match fs with
  | [] => (st, none)
  | f :: rest =>
      match visitFunctionDefinition k f st with
      | (st1, some e) => (st1, some e)
      | (st1, none) => visitFunctions k rest st1

/-- The first violated contract-level restriction, in the order of source
lines 38-46, with the exact `solUnimplementedAssert` message; `none` when
the contract passes all six checks. -/
def contractViolation (c : SrcContract) : Option String :=
  if c.kind ≠ ContractKind.Contract then
    some "Non-contracts (libraries, interfaces) are not supported yet."
  else if c.baseContracts ≠ [] then some "Inheritance not supported yet."
  else if c.definedStructs ≠ [] then some "User-defined types not supported yet."
  else if c.definedEnums ≠ [] then some "User-defined types not supported yet."
  else if c.events ≠ [] then some "Events not supported yet."
  else if c.functionModifiers ≠ [] then some "Modifiers not supported yet."
  else none

/-- Source lines 36-58, `visit(ContractDefinition)`: the six restriction
checks in order; then the `solAssert` that the fully-qualified name is not
yet registered (message is the empty string, as in the source); then a fresh
block is created, registered, and aliased by `m_body`; the defined functions
are visited in declaration order; finally `buildDispatcher` seals the
block. -/
def visitContractDefinition (k : Keccak) (c : SrcContract) (st : GenState) :
    GenState × Option GenError :=
  match contractViolation c with
  | some m => (st, some (GenError.unsupported m))
  | none =>
      if (lookupContract st.contracts c.fullyQualifiedName).isSome then
        (st, some (GenError.internal ""))
      else
        let st1 : GenState :=
          { st with
            contracts := st.contracts ++ [(c.fullyQualifiedName, [])],
            current := some c.fullyQualifiedName }
        match visitFunctions k c.definedFunctions st1 with
        | (st2, some e) => (st2, some e)
        | (st2, none) => (buildDispatcher k c st2, none)

mutual

/-- IR statements produced for one source statement by the body traversal. -/
def genStmt (s : SrcStatement) : List AsmStatement :=
  match s with
  | SrcStatement.block ss => genList ss
  | SrcStatement.throwStmt => [createRevert]
  | SrcStatement.inlineAssembly ops => [AsmStatement.block ops]

/-- IR statements produced for a source statement list. -/
def genList (ss : List SrcStatement) : List AsmStatement :=
  match ss with
  | [] => []
  | s :: rest => genStmt s ++ genList rest

end

/-- The function definition committed into the contract block for one
visited source function: the unique internal name and the translated body. -/
def committedFunDef (k : Keccak) (f : SrcFunction) : AsmStatement :=
  AsmStatement.funDef (uniqueFunctionName k f) [] (genList f.body)

/-- The current-function context left behind after visiting a list of
functions: that of the last visited function, or the initial one when the
list is empty.  Nothing ever resets the context. -/
def lastContext (k : Keccak) (fs : List SrcFunction) (c : Option CurFun) : Option CurFun :=
  fs.foldl (fun _ f => some ⟨uniqueFunctionName k f, genList f.body⟩) c

section Lemmas

/-- Updating the registered block of a key and then looking the key up sees
the update. -/
theorem lookupContract_updateAssoc_self (l : List (String × List AsmStatement))
    (key : String) (g : List AsmStatement → List AsmStatement) :
    lookupContract (updateAssoc l key g) key = (lookupContract l key).map g := by
  induction l with
  | nil => rfl
  | cons p rest ih =>
    obtain ⟨a, b⟩ := p
    by_cases h : a = key
    · simp [updateAssoc, lookupContract, h]
    · simp [updateAssoc, lookupContract, h, ih]

/-- Registering a fresh name makes its block the empty one. -/
theorem lookupContract_append_new (l : List (String × List AsmStatement)) (n : String)
    (h : lookupContract l n = none) :
    lookupContract (l ++ [(n, [])]) n = some [] := by
  induction l with
  | nil => simp [lookupContract]
  | cons p rest ih =>
    obtain ⟨a, b⟩ := p
    by_cases ha : a = n
    · simp [lookupContract, ha] at h
    · simp only [lookupContract, List.cons_append, if_neg ha] at h ⊢
      exact ih h

theorem appendFunction_nil (st : GenState) : appendFunction [] st = st := rfl

theorem appendFunction_cons (s : AsmStatement) (rest : List AsmStatement) (st : GenState) :
    appendFunction (s :: rest) st = appendFunction rest (appendToBody s st) := rfl

/-- `appendToBody` reads and writes only the registry; the current-function
context passes through unchanged, and changing it beforehand commutes. -/
theorem appendToBody_setCur (s : AsmStatement) (st : GenState) (x : Option CurFun) :
    appendToBody s { st with currentFunction := x } =
      { appendToBody s st with currentFunction := x } := by
  obtain ⟨cs, cur, cf⟩ := st
  cases cur <;> rfl

theorem appendFunction_setCur (l : List AsmStatement) (st : GenState) (x : Option CurFun) :
    appendFunction l { st with currentFunction := x } =
      { appendFunction l st with currentFunction := x } := by
  induction l generalizing st with
  | nil => rfl
  | cons s rest ih =>
    rw [appendFunction_cons, appendFunction_cons, appendToBody_setCur, ih]

theorem appendToBody_current (s : AsmStatement) (st : GenState) :
    (appendToBody s st).current = st.current := by
  obtain ⟨cs, cur, cf⟩ := st
  cases cur <;> rfl

theorem appendFunction_current (l : List AsmStatement) (st : GenState) :
    (appendFunction l st).current = st.current := by
  induction l generalizing st with
  | nil => rfl
  | cons s rest ih =>
    rw [appendFunction_cons, ih, appendToBody_current]

/-- Appending one statement through `m_body` extends the registered block of
the aliased contract by that statement. -/
theorem lookupContract_appendToBody (s : AsmStatement) (st : GenState) (name : String)
    (hc : st.current = some name) :
    lookupContract (appendToBody s st).contracts name =
      (lookupContract st.contracts name).map (fun b => b ++ [s]) := by
  unfold appendToBody
  rw [hc]
  exact lookupContract_updateAssoc_self st.contracts name (fun b => b ++ [s])

/-- Splicing a statement list through `m_body` extends the registered block
of the aliased contract by that list. -/
theorem lookupContract_appendFunction (l : List AsmStatement) (st : GenState) (name : String)
    (hc : st.current = some name) :
    lookupContract (appendFunction l st).contracts name =
      (lookupContract st.contracts name).map (fun b => b ++ l) := by
  induction l generalizing st with
  | nil =>
    rw [appendFunction_nil]
    cases lookupContract st.contracts name <;> simp
  | cons s rest ih =>
    rw [appendFunction_cons, ih (appendToBody s st) (by rw [appendToBody_current]; exact hc),
        lookupContract_appendToBody s st name hc]
    cases lookupContract st.contracts name <;> simp

mutual

/-- Visiting one source statement only extends the body of the active
current-function context, by exactly `genStmt`. -/
theorem visitSrcStmt_eq : ∀ (s : SrcStatement) (st : GenState),
    visitSrcStmt s st =
      { st with currentFunction :=
          st.currentFunction.map (fun cf => ⟨cf.name, cf.body ++ genStmt s⟩) }
  | SrcStatement.block ss, st => by
      show visitSrcList ss st = _
      exact visitSrcList_eq ss st
  | SrcStatement.throwStmt, st => by
      obtain ⟨cs, cur, cf⟩ := st
      cases cf <;> rfl
  | SrcStatement.inlineAssembly ops, st => by
      obtain ⟨cs, cur, cf⟩ := st
      cases cf <;> rfl

/-- Visiting a source statement list only extends the body of the active
current-function context, by exactly `genList`. -/
theorem visitSrcList_eq : ∀ (ss : List SrcStatement) (st : GenState),
    visitSrcList ss st =
      { st with currentFunction :=
          st.currentFunction.map (fun cf => ⟨cf.name, cf.body ++ genList ss⟩) }
  | [], st => by
      obtain ⟨cs, cur, cf⟩ := st
      cases cf <;> simp [visitSrcList, genList]
  | s :: rest, st => by
      show visitSrcList rest (visitSrcStmt s st) = _
      rw [visitSrcList_eq rest, visitSrcStmt_eq s]
      obtain ⟨cs, cur, cf⟩ := st
      cases cf with
      | none => rfl
      | some c => simp [genList, List.append_assoc]

end

/-- A function-level restriction violation aborts the function visit with
the corresponding `UnsupportedFeature` message, leaving the state exactly as
it was. -/
theorem visitFunctionDefinition_fail (k : Keccak) (f : SrcFunction) (st : GenState)
    (m : String) (h : functionViolation f = some m) :
    visitFunctionDefinition k f st = (st, some (GenError.unsupported m)) := by
  unfold visitFunctionDefinition
  rw [h]

/-- A function passing the restriction checks is committed into the contract
block under its unique name with its translated body, and the
current-function context is left holding that same data — it is set on
entry, regardless of any previously active context, and never cleared. -/
theorem visitFunctionDefinition_ok (k : Keccak) (f : SrcFunction) (st : GenState)
    (h : functionViolation f = none) :
    visitFunctionDefinition k f st =
      ({ appendToBody (committedFunDef k f) st with
          currentFunction := some ⟨uniqueFunctionName k f, genList f.body⟩ }, none) := by
  unfold visitFunctionDefinition
  rw [h]
  simp only [visitSrcList_eq, Option.map_some', List.nil_append]
  rw [appendToBody_setCur]
  rfl

/-- Visiting a function list in which every function passes the checks
commits every function in order and leaves the last context active. -/
theorem visitFunctions_ok (k : Keccak) (fs : List SrcFunction) (st : GenState)
    (h : ∀ f ∈ fs, functionViolation f = none) :
    visitFunctions k fs st =
      ({ appendFunction (fs.map (committedFunDef k)) st with
          currentFunction := lastContext k fs st.currentFunction }, none) := by
  induction fs generalizing st with
  | nil =>
    show (st, none) = _
    obtain ⟨cs, cur, cf⟩ := st
    rfl
  | cons f rest ih =>
    have hf : functionViolation f = none := h f (by simp)
    have hrest : ∀ g ∈ rest, functionViolation g = none := fun g hg => h g (by simp [hg])
    show (match visitFunctionDefinition k f st with
          | (st1, some e) => (st1, some e)
          | (st1, none) => visitFunctions k rest st1) = _
    rw [visitFunctionDefinition_ok k f st hf]
    show visitFunctions k rest _ = _
    rw [ih _ hrest]
    rw [appendFunction_setCur]
    rfl

/-- If the visit of a function list succeeds, every function in it passed
the restriction checks. -/
theorem visitFunctions_all_ok (k : Keccak) (fs : List SrcFunction) (st : GenState)
    (h : (visitFunctions k fs st).2 = none) :
    ∀ f ∈ fs, functionViolation f = none := by
  induction fs generalizing st with
  | nil => simp
  | cons f rest ih =>
    intro g hg
    cases hv : functionViolation f with
    | some m =>
      rw [show visitFunctions k (f :: rest) st =
            (match visitFunctionDefinition k f st with
             | (st1, some e) => (st1, some e)
             | (st1, none) => visitFunctions k rest st1) from rfl,
          visitFunctionDefinition_fail k f st m hv] at h
      simp at h
    | none =>
      rcases List.mem_cons.mp hg with hgf | hgr
      · rw [hgf]; exact hv
      · rw [show visitFunctions k (f :: rest) st =
              (match visitFunctionDefinition k f st with
               | (st1, some e) => (st1, some e)
               | (st1, none) => visitFunctions k rest st1) from rfl,
            visitFunctionDefinition_ok k f st hv] at h
        exact ih _ h g hgr

/-- Visiting a function list whose first offending function is `f` commits
the preceding functions and aborts with the `UnsupportedFeature` message of
`f`'s first violated restriction; the partially filled block stays behind in
the state. -/
theorem visitFunctions_fail (k : Keccak) (pre : List SrcFunction) (f : SrcFunction)
    (post : List SrcFunction) (st : GenState) (m : String)
    (hpre : ∀ g ∈ pre, functionViolation g = none) (hf : functionViolation f = some m) :
    visitFunctions k (pre ++ f :: post) st =
      ({ appendFunction (pre.map (committedFunDef k)) st with
          currentFunction := lastContext k pre st.currentFunction },
       some (GenError.unsupported m)) := by
  induction pre generalizing st with
  | nil =>
    show (match visitFunctionDefinition k f st with
          | (st1, some e) => (st1, some e)
          | (st1, none) => visitFunctions k post st1) = _
    rw [visitFunctionDefinition_fail k f st m hf]
    obtain ⟨cs, cur, cf⟩ := st
    rfl
  | cons g rest ih =>
    have hg : functionViolation g = none := hpre g (by simp)
    have hrest : ∀ x ∈ rest, functionViolation x = none := fun x hx => hpre x (by simp [hx])
    show (match visitFunctionDefinition k g st with
          | (st1, some e) => (st1, some e)
          | (st1, none) => visitFunctions k (rest ++ f :: post) st1) = _
    rw [visitFunctionDefinition_ok k g st hg]
    show visitFunctions k (rest ++ f :: post) _ = _
    rw [ih _ hrest]
    rw [appendFunction_setCur]
    rfl

/-- Inversion of a successful contract visit: success means the restriction
checks passed, the name was fresh, the function visits all succeeded, and
the final state is the dispatcher-sealed one. -/
theorem visitContractDefinition_success_inv (k : Keccak) (c : SrcContract)
    (st st' : GenState) (h : visitContractDefinition k c st = (st', none)) :
    contractViolation c = none ∧
    lookupContract st.contracts c.fullyQualifiedName = none ∧
    ∃ st2,
      visitFunctions k c.definedFunctions
        { st with contracts := st.contracts ++ [(c.fullyQualifiedName, [])],
                  current := some c.fullyQualifiedName } = (st2, none) ∧
      st' = buildDispatcher k c st2 := by
  unfold visitContractDefinition at h
  cases hcv : contractViolation c with
  | some m => rw [hcv] at h; simp at h
  | none =>
    rw [hcv] at h
    cases hreg : lookupContract st.contracts c.fullyQualifiedName with
    | some b => rw [hreg] at h; simp at h
    | none =>
      rw [hreg] at h
      simp only [Option.isSome_none, Bool.false_eq_true, if_false] at h
      cases hvf : visitFunctions k c.definedFunctions
          { st with contracts := st.contracts ++ [(c.fullyQualifiedName, [])],
                    current := some c.fullyQualifiedName } with
      | mk st2 r =>
        rw [hvf] at h
        cases r with
        | some e => simp at h
        | none =>
          refine ⟨rfl, rfl, st2, rfl, ?_⟩
          exact (Prod.mk.injEq _ _ _ _ ▸ h).1.symm

/-- The registered block of a successfully generated contract: the committed
function definitions in declaration order, the two boilerplate helpers, and
the dispatch switch last. -/
theorem generate_block_eq (k : Keccak) (c : SrcContract) (st st' : GenState)
    (h : visitContractDefinition k c st = (st', none)) :
    lookupContract st'.contracts c.fullyQualifiedName =
      some (c.definedFunctions.map (committedFunDef k) ++
            boilerplateStatements ++ [dispatchSwitch k c]) := by
  obtain ⟨hcv, hreg, st2, hvf, hst'⟩ := visitContractDefinition_success_inv k c st st' h
  have hall : ∀ f ∈ c.definedFunctions, functionViolation f = none :=
    visitFunctions_all_ok k _ _ (by rw [hvf])
  rw [visitFunctions_ok k _ _ hall] at hvf
  have h1 :
      ({ appendFunction (c.definedFunctions.map (committedFunDef k))
          { st with contracts := st.contracts ++ [(c.fullyQualifiedName, [])],
                    current := some c.fullyQualifiedName } with
         currentFunction := lastContext k c.definedFunctions
           ({ st with contracts := st.contracts ++ [(c.fullyQualifiedName, [])],
                      current := some c.fullyQualifiedName } : GenState).currentFunction }
        : GenState) = st2 :=
    (Prod.mk.injEq _ _ _ _ ▸ hvf).1
  have hcur1 : ({ st with
                  contracts := st.contracts ++ [(c.fullyQualifiedName, [])],
                  current := some c.fullyQualifiedName } : GenState).current =
      some c.fullyQualifiedName := rfl
  have hlook1 : lookupContract
      ({ st with
         contracts := st.contracts ++ [(c.fullyQualifiedName, [])],
         current := some c.fullyQualifiedName } : GenState).contracts
      c.fullyQualifiedName = some [] :=
    lookupContract_append_new st.contracts _ hreg
  have hcur2 : st2.current = some c.fullyQualifiedName := by
    rw [← h1]
    show (appendFunction _ _).current = _
    rw [appendFunction_current]
  have hlook2 : lookupContract st2.contracts c.fullyQualifiedName =
      some (c.definedFunctions.map (committedFunDef k)) := by
    rw [← h1]
    show lookupContract (appendFunction _ _).contracts _ = _
    rw [lookupContract_appendFunction _ _ _ hcur1, hlook1]
    simp
  subst hst'
  show lookupContract (appendToBody (dispatchSwitch k c)
      (appendFunction boilerplateStatements st2)).contracts _ = _
  rw [lookupContract_appendToBody _ _ _ (by rw [appendFunction_current]; exact hcur2),
      lookupContract_appendFunction _ _ _ hcur2, hlook2]
  simp [List.append_assoc]

end Lemmas

section Fixtures

/-- Concrete hash for closed runs: an arbitrary six-byte digest derived from
the input's length (enough to make names and selectors concrete). -/
def exampleKeccak : Keccak := fun s => [s.length % 256, 1, 2, 3, 4, 5]

/-- A supported external function `foo`, non-payable, empty body. -/
def fnFoo : SrcFunction := ⟨"foo", [], [], [], true, false, true, []⟩

/-- An unnamed (fallback) function, non-payable, not part of the external
interface. -/
def fnFallback : SrcFunction := ⟨"", [], [], [], true, false, false, []⟩

/-- A function declaring one parameter, hence hitting the parameter
restriction. -/
def fnParams : SrcFunction := ⟨"p", ["uint256"], [], [], true, false, true, []⟩

/-- A fully supported one-function contract named `C`. -/
def exampleContract : SrcContract :=
  ⟨ContractKind.Contract, [], [], [], [], [], "C", [fnFoo]⟩

/-- A supported contract with an external function and a fallback. -/
def fallbackContract : SrcContract :=
  ⟨ContractKind.Contract, [], [], [], [], [], "F", [fnFoo, fnFallback]⟩

/-- A contract whose only function violates the parameter restriction. -/
def paramContract : SrcContract :=
  ⟨ContractKind.Contract, [], [], [], [], [], "P", [fnParams]⟩

/-- A library named `C`, hitting the contract-kind restriction. -/
def libC : SrcContract := ⟨ContractKind.Library, [], [], [], [], [], "C", []⟩

/-- A generator state in which a function context is already Active. -/
def stActive : GenState := ⟨[("C", [])], some "C", some ⟨"g", []⟩⟩

end Fixtures

section Claims

/-- C1: for every contract that generates successfully with N externally
callable functions in declaration order, the dispatcher Switch built by
`buildDispatcher` has exactly N+1 cases; case i carries the selector
literal of the i-th externally callable function; and the last case is the
single default case (the only one without a selector literal). -/
theorem dispatcher_case_structure (k : Keccak) (c : SrcContract) (st st' : GenState)
    (h : visitContractDefinition k c st = (st', none)) :
    ∃ bs cs,
      lookupContract st'.contracts c.fullyQualifiedName =
        some (bs ++ [AsmStatement.switchStmt (createFunctionCall "extractCallSignature") cs]) ∧
      cs.length = (externalFunctions c).length + 1 ∧
      cs.map Prod.fst =
        (externalFunctions c).map (fun f => some (selectorLiteral k f)) ++ [none] := by
  refine ⟨c.definedFunctions.map (committedFunDef k) ++ boilerplateStatements,
          (externalFunctions c).map (dispatchCaseOf k) ++ [defaultCaseOf c], ?_, ?_, ?_⟩
  · rw [generate_block_eq k c st st' h]
    simp [dispatchSwitch, List.append_assoc]
  · simp
  · cases hfb : fallbackFunction c <;> simp [defaultCaseOf, hfb, dispatchCaseOf]

/-- Witness for C1 at a concrete contract: the one-function contract
`exampleContract` generates successfully from the initial state. -/
theorem dispatcher_case_structure_witness :
    ∃ bs cs,
      lookupContract
          ((visitContractDefinition exampleKeccak exampleContract initState).1).contracts
          exampleContract.fullyQualifiedName =
        some (bs ++ [AsmStatement.switchStmt (createFunctionCall "extractCallSignature") cs]) ∧
      cs.length = (externalFunctions exampleContract).length + 1 ∧
      cs.map Prod.fst =
        (externalFunctions exampleContract).map
          (fun f => some (selectorLiteral exampleKeccak f)) ++ [none] :=
  dispatcher_case_structure exampleKeccak exampleContract initState _ rfl

/-- C2: for every externally callable function of a successfully generated
contract, the selector literal on its dispatch case is a Number literal
with type tag u256 whose value is the 0x-prefixed hex encoding of the four
leading bytes of keccak-256 of the canonical signature (function name plus
comma-joined canonical parameter type names, no whitespace), i.e. of the
hash value right-shifted so that the selector occupies its low four
bytes. -/
theorem dispatcher_selector_literal (k : Keccak) (c : SrcContract) (st st' : GenState)
    (h : visitContractDefinition k c st = (st', none)) :
    ∃ bs cs,
      lookupContract st'.contracts c.fullyQualifiedName =
        some (bs ++ [AsmStatement.switchStmt (createFunctionCall "extractCallSignature") cs]) ∧
      cs.map Prod.fst =
        (externalFunctions c).map (fun f =>
          some ⟨LiteralKind.Number,
                "0x" ++ natToHex64 (bytesToNat ((k (f.name ++ "(" ++
                    String.intercalate "," f.paramTypes ++ ")")).take 4)),
                "u256"⟩) ++ [none] := by
  refine ⟨c.definedFunctions.map (committedFunDef k) ++ boilerplateStatements,
          (externalFunctions c).map (dispatchCaseOf k) ++ [defaultCaseOf c], ?_, ?_⟩
  · rw [generate_block_eq k c st st' h]
    simp [dispatchSwitch, List.append_assoc]
  · cases hfb : fallbackFunction c <;>
      simp [defaultCaseOf, hfb, dispatchCaseOf, selectorLiteral, selectorValue,
        externalSignature]

/-- Witness for C2 at the concrete contract `exampleContract`. -/
theorem dispatcher_selector_literal_witness :
    ∃ bs cs,
      lookupContract
          ((visitContractDefinition exampleKeccak exampleContract initState).1).contracts
          exampleContract.fullyQualifiedName =
        some (bs ++ [AsmStatement.switchStmt (createFunctionCall "extractCallSignature") cs]) ∧
      cs.map Prod.fst =
        (externalFunctions exampleContract).map (fun f =>
          some ⟨LiteralKind.Number,
                "0x" ++ natToHex64 (bytesToNat ((exampleKeccak (f.name ++ "(" ++
                    String.intercalate "," f.paramTypes ++ ")")).take 4)),
                "u256"⟩) ++ [none] :=
  dispatcher_selector_literal exampleKeccak exampleContract initState _ rfl

/-- C9: generation is deterministic — running the generator on structurally
identical input from the same state yields structurally identical output
(the embedded generator is a pure function of the AST, the hash and the
state). -/
theorem generation_deterministic (k : Keccak) (c₁ c₂ : SrcContract) (st : GenState)
    (h : c₁ = c₂) :
    visitContractDefinition k c₁ st = visitContractDefinition k c₂ st := by
  rw [h]

/-- Witness for C9 at the concrete contract `exampleContract`. -/
theorem generation_deterministic_witness :
    visitContractDefinition exampleKeccak exampleContract initState =
      visitContractDefinition exampleKeccak exampleContract initState :=
  generation_deterministic exampleKeccak exampleContract exampleContract initState rfl

/-- C10: for every contract that generates successfully, the root Block
holds the committed FunctionDefinitions in declaration order first, then
the two parsed boilerplate statements in snippet order (value guard, then
selector extractor), then the dispatch Switch as the single final
statement. -/
theorem block_statement_order (k : Keccak) (c : SrcContract) (st st' : GenState)
    (h : visitContractDefinition k c st = (st', none)) :
    lookupContract st'.contracts c.fullyQualifiedName =
      some (c.definedFunctions.map (committedFunDef k) ++
            [ensureNoValueTransferDef, extractCallSignatureDef] ++
            [dispatchSwitch k c]) := by
  rw [generate_block_eq k c st st' h]
  simp [boilerplateStatements, List.append_assoc]

/-- Witness for C10 at the concrete contract `exampleContract`. -/
theorem block_statement_order_witness :
    lookupContract
        ((visitContractDefinition exampleKeccak exampleContract initState).1).contracts
        exampleContract.fullyQualifiedName =
      some (exampleContract.definedFunctions.map (committedFunDef exampleKeccak) ++
            [ensureNoValueTransferDef, extractCallSignatureDef] ++
            [dispatchSwitch exampleKeccak exampleContract]) :=
  block_statement_order exampleKeccak exampleContract initState _ rfl

/-- C3: in every dispatch case of a successfully generated contract —
including the default case when a fallback is declared — the body begins
with the `ensureNoValueTransfer` guard call iff the function is not
payable, immediately followed by the call to the function's unique internal
name; a payable function's case body is the implementation call alone. -/
theorem dispatch_case_value_guard (k : Keccak) (c : SrcContract) (st st' : GenState)
    (h : visitContractDefinition k c st = (st', none)) :
    ∃ bs cs,
      lookupContract st'.contracts c.fullyQualifiedName =
        some (bs ++ [AsmStatement.switchStmt (createFunctionCall "extractCallSignature") cs]) ∧
      cs.take (externalFunctions c).length =
        (externalFunctions c).map (fun f =>
          (some (selectorLiteral k f),
           if f.payable = true then [createFunctionCall (uniqueFunctionName k f)]
           else [createFunctionCall "ensureNoValueTransfer",
                 createFunctionCall (uniqueFunctionName k f)])) ∧
      (∀ fb, fallbackFunction c = some fb →
        cs.getLast? = some (none,
          if fb.payable = true then [createFunctionCall "fallback"]
          else [createFunctionCall "ensureNoValueTransfer",
                createFunctionCall "fallback"])) := by
  refine ⟨c.definedFunctions.map (committedFunDef k) ++ boilerplateStatements,
          (externalFunctions c).map (dispatchCaseOf k) ++ [defaultCaseOf c], ?_, ?_, ?_⟩
  · rw [generate_block_eq k c st st' h]
    simp [dispatchSwitch, List.append_assoc]
  · rw [List.take_left' (by simp)]
    apply List.map_congr_left
    intro f hf
    cases hpay : f.payable <;> simp [dispatchCaseOf, hpay]
  · intro fb hfb
    rw [List.getLast?_concat]
    cases hpay : fb.payable <;> simp [defaultCaseOf, hfb, hpay]

/-- Witness for C3 at the concrete contract `fallbackContract`, which has
both an external function and a non-payable fallback. -/
theorem dispatch_case_value_guard_witness :
    ∃ bs cs,
      lookupContract
          ((visitContractDefinition exampleKeccak fallbackContract initState).1).contracts
          fallbackContract.fullyQualifiedName =
        some (bs ++ [AsmStatement.switchStmt (createFunctionCall "extractCallSignature") cs]) ∧
      cs.take (externalFunctions fallbackContract).length =
        (externalFunctions fallbackContract).map (fun f =>
          (some (selectorLiteral exampleKeccak f),
           if f.payable = true then [createFunctionCall (uniqueFunctionName exampleKeccak f)]
           else [createFunctionCall "ensureNoValueTransfer",
                 createFunctionCall (uniqueFunctionName exampleKeccak f)])) ∧
      (∀ fb, fallbackFunction fallbackContract = some fb →
        cs.getLast? = some (none,
          if fb.payable = true then [createFunctionCall "fallback"]
          else [createFunctionCall "ensureNoValueTransfer",
                createFunctionCall "fallback"])) :=
  dispatch_case_value_guard exampleKeccak fallbackContract initState _ rfl

/-- C4: for every successfully generated contract, the default dispatch
case calls `fallback` (preceded by the value guard iff the fallback is
non-payable) when a fallback is declared; with no fallback its body is
exactly the canonical `revert(0,0)` call with two zero-valued 256-bit-typed
literal arguments. -/
theorem dispatch_default_case (k : Keccak) (c : SrcContract) (st st' : GenState)
    (h : visitContractDefinition k c st = (st', none)) :
    ∃ bs cs,
      lookupContract st'.contracts c.fullyQualifiedName =
        some (bs ++ [AsmStatement.switchStmt (createFunctionCall "extractCallSignature") cs]) ∧
      (∀ fb, fallbackFunction c = some fb →
        cs.getLast? = some (none,
          (if fb.payable = true then [] else [createFunctionCall "ensureNoValueTransfer"]) ++
            [createFunctionCall "fallback"])) ∧
      (fallbackFunction c = none →
        cs.getLast? = some (none,
          [AsmStatement.funCall "revert"
            [AsmStatement.literal ⟨LiteralKind.Number, "0", "u256"⟩,
             AsmStatement.literal ⟨LiteralKind.Number, "0", "u256"⟩]])) := by
  refine ⟨c.definedFunctions.map (committedFunDef k) ++ boilerplateStatements,
          (externalFunctions c).map (dispatchCaseOf k) ++ [defaultCaseOf c], ?_, ?_, ?_⟩
  · rw [generate_block_eq k c st st' h]
    simp [dispatchSwitch, List.append_assoc]
  · intro fb hfb
    rw [List.getLast?_concat]
    simp [defaultCaseOf, hfb]
  · intro hfb
    rw [List.getLast?_concat]
    simp [defaultCaseOf, hfb, createRevert, zeroU256]

/-- Witness for C4 at the concrete contract `exampleContract`, which has no
fallback (default case is the canonical revert). -/
theorem dispatch_default_case_witness :
    ∃ bs cs,
      lookupContract
          ((visitContractDefinition exampleKeccak exampleContract initState).1).contracts
          exampleContract.fullyQualifiedName =
        some (bs ++ [AsmStatement.switchStmt (createFunctionCall "extractCallSignature") cs]) ∧
      (∀ fb, fallbackFunction exampleContract = some fb →
        cs.getLast? = some (none,
          (if fb.payable = true then [] else [createFunctionCall "ensureNoValueTransfer"]) ++
            [createFunctionCall "fallback"])) ∧
      (fallbackFunction exampleContract = none →
        cs.getLast? = some (none,
          [AsmStatement.funCall "revert"
            [AsmStatement.literal ⟨LiteralKind.Number, "0", "u256"⟩,
             AsmStatement.literal ⟨LiteralKind.Number, "0", "u256"⟩]])) :=
  dispatch_default_case exampleKeccak exampleContract initState _ rfl

/-- C5 (code bug in source line 68, which references the undeclared
identifier `function` instead of the parameter `_function`): evaluation of
the intended unique-name derivation — an unnamed function is named
`fallback`, and a named function is named underscore, source name,
underscore, hex of the keccak-256 digest of its canonical signature. -/
theorem uniqueFunctionName_eval :
    uniqueFunctionName exampleKeccak fnFoo =
      "_foo_" ++ bytesToHex (exampleKeccak (externalSignature fnFoo)) ∧
    uniqueFunctionName exampleKeccak fnFoo = "_foo_050102030405" ∧
    uniqueFunctionName exampleKeccak fnFallback = "fallback" :=
  ⟨rfl, rfl, rfl⟩

/-- C6 counterexample: the contract `P`, whose only function declares a
parameter, fails with the expected UnsupportedFeature message — but,
contrary to the claim, a (partially built, here still empty) Block for `P`
remains registered after the failure. -/
theorem function_restriction_leaves_block_registered :
    (visitContractDefinition exampleKeccak paramContract initState).2 =
      some (GenError.unsupported "Parameters not supported yet.") ∧
    lookupContract
        (visitContractDefinition exampleKeccak paramContract initState).1.contracts
        "P" = some [] ∧
    lookupContract
        (visitContractDefinition exampleKeccak paramContract initState).1.contracts
        "P" ≠ none :=
  ⟨rfl, rfl, fun hc => Option.noConfusion hc⟩

/-- C6 (amended): every violated restriction fails generation with the
UnsupportedFeature message naming exactly that restriction; a
contract-level violation occurs before registration and leaves the state
untouched, but a function-level violation occurs after the contract's
Block is registered, and the partially built Block (holding the functions
committed so far) remains registered after the failure. -/
theorem restriction_failure_behaviour (k : Keccak) (c : SrcContract) (st : GenState)
    (m : String) :
    (contractViolation c = some m →
      visitContractDefinition k c st = (st, some (GenError.unsupported m))) ∧
    (contractViolation c = none →
      lookupContract st.contracts c.fullyQualifiedName = none →
      ∀ pre f post, c.definedFunctions = pre ++ f :: post →
        (∀ g ∈ pre, functionViolation g = none) →
        functionViolation f = some m →
        (visitContractDefinition k c st).2 = some (GenError.unsupported m) ∧
        lookupContract (visitContractDefinition k c st).1.contracts
          c.fullyQualifiedName = some (pre.map (committedFunDef k))) := by
  constructor
  · intro hcv
    unfold visitContractDefinition
    rw [hcv]
  · intro hcv hreg pre f post hsplit hpre hf
    unfold visitContractDefinition
    rw [hcv, hreg]
    simp only [Option.isSome_none, Bool.false_eq_true, if_false]
    rw [hsplit, visitFunctions_fail k pre f post _ m hpre hf]
    refine ⟨rfl, ?_⟩
    show lookupContract (appendFunction _ _).contracts _ = _
    rw [lookupContract_appendFunction _ _ _ rfl,
        lookupContract_append_new st.contracts _ hreg]
    simp

/-- Witness for the amended C6: the library `libC` fails before
registration with the state untouched, and the contract `P` fails at its
parameter-declaring function with the empty partial block registered. -/
theorem restriction_failure_behaviour_witness :
    visitContractDefinition exampleKeccak libC initState =
      (initState,
       some (GenError.unsupported
         "Non-contracts (libraries, interfaces) are not supported yet.")) ∧
    ((visitContractDefinition exampleKeccak paramContract initState).2 =
        some (GenError.unsupported "Parameters not supported yet.") ∧
      lookupContract
          (visitContractDefinition exampleKeccak paramContract initState).1.contracts
          "P" = some (([] : List SrcFunction).map (committedFunDef exampleKeccak))) :=
  ⟨(restriction_failure_behaviour exampleKeccak libC initState _).1 rfl,
   (restriction_failure_behaviour exampleKeccak paramContract initState _).2
     rfl rfl [] fnParams [] rfl (by simp) rfl⟩

/-- C7 counterexample: the name `C` is already registered by a successful
visit, yet re-visiting a library also named `C` fails with the user-facing
UnsupportedFeature of the contract-kind restriction — not with the
internal-consistency violation the claim requires for every visit of an
already-registered name. -/
theorem duplicate_registration_not_always_internal :
    lookupContract
        (visitContractDefinition exampleKeccak exampleContract initState).1.contracts
        "C" ≠ none ∧
    (visitContractDefinition exampleKeccak libC
        (visitContractDefinition exampleKeccak exampleContract initState).1).2 =
      some (GenError.unsupported
        "Non-contracts (libraries, interfaces) are not supported yet.") ∧
    (visitContractDefinition exampleKeccak libC
        (visitContractDefinition exampleKeccak exampleContract initState).1).2 ≠
      some (GenError.internal "") :=
  ⟨fun hc => Option.noConfusion hc, rfl,
   fun hc => GenError.noConfusion (Option.some.inj hc)⟩

/-- C7 (amended): for a contract that passes the contract-level feature
checks (which the source evaluates first), visiting a fully-qualified name
that already has a registered Block fails with the internal-consistency
violation (the empty-message solAssert), before any statements are emitted
and without modifying the state. -/
theorem duplicate_registration_internal (k : Keccak) (c : SrcContract) (st : GenState)
    (b : List AsmStatement) (hcv : contractViolation c = none)
    (hreg : lookupContract st.contracts c.fullyQualifiedName = some b) :
    visitContractDefinition k c st = (st, some (GenError.internal "")) := by
  unfold visitContractDefinition
  rw [hcv, hreg]
  rfl

/-- Witness for the amended C7: visiting `exampleContract` a second time
fails with the internal-consistency violation and an unchanged state. -/
theorem duplicate_registration_internal_witness :
    visitContractDefinition exampleKeccak exampleContract
        (visitContractDefinition exampleKeccak exampleContract initState).1 =
      ((visitContractDefinition exampleKeccak exampleContract initState).1,
       some (GenError.internal "")) :=
  duplicate_registration_internal exampleKeccak exampleContract _ _ rfl rfl

/-- C8 counterexample: with a context already Active (holding `g`), a
second function visit succeeds — silently overwriting the context instead
of failing an internal invariant — and after a completed contract visit the
context still holds the last function rather than being cleared back to
Idle. -/
theorem current_function_context_violations :
    (visitFunctionDefinition exampleKeccak fnFoo stActive).2 = none ∧
    (visitFunctionDefinition exampleKeccak fnFoo stActive).1.currentFunction =
      some ⟨"_foo_050102030405", []⟩ ∧
    (visitContractDefinition exampleKeccak exampleContract initState).1.currentFunction ≠
      none :=
  ⟨rfl, rfl, fun hc => Option.noConfusion hc⟩

/-- C8 (amended): the current-function context becomes Active exactly on
function-visit entry — overwriting any previously active context without
failing — and on exit the finished FunctionDefinition is committed to the
contract Block while the context is left holding the committed data; it is
not cleared back to Idle. -/
theorem current_function_context_behaviour (k : Keccak) (f : SrcFunction) (st : GenState)
    (h : functionViolation f = none) :
    visitFunctionDefinition k f st =
      ({ appendToBody (committedFunDef k f) st with
          currentFunction := some ⟨uniqueFunctionName k f, genList f.body⟩ }, none) :=
  visitFunctionDefinition_ok k f st h

/-- Witness for the amended C8 at the Active state `stActive`: the second
activation succeeds and the context ends up holding `foo`'s data. -/
theorem current_function_context_behaviour_witness :
    visitFunctionDefinition exampleKeccak fnFoo stActive =
      ({ appendToBody (committedFunDef exampleKeccak fnFoo) stActive with
          currentFunction := some ⟨uniqueFunctionName exampleKeccak fnFoo,
            genList fnFoo.body⟩ }, none) :=
  current_function_context_behaviour exampleKeccak fnFoo stActive rfl

end Claims

end IRGen
